import Mathlib

/-!
Shallow embedding of `src/translator_v5_cost.py`, a batch spreadsheet
translator: a language registry, a script-family output validator
(`_lang_ok`), a retried API client (`call_api`, 3 attempts), a per-cell
worker (`do_job`), and a driver (`main`) that enumerates one job per
(row, language) pair, writes results back into the table, accumulates
token totals and reorders the output columns.

Strings are Lean `String`s; the remote completion endpoint is abstracted
as an oracle mapping each attempt index to an outcome (a network error or
a raw response with token counts); `pandas` NaN cells are `Option.none`;
the error log is the list of (row, language, message) records emitted by
`logger.error`.
-/

namespace Translator

/-- The configured target-language display labels, `LANGS` in the source. -/
def LANGS : List String :=
  ["英语", "法语", "德语", "意大利语", "西班牙语", "俄语", "葡萄牙语", "捷克语",
   "日语", "斯洛伐克语", "波兰语", "匈牙利语", "荷兰语", "乌克兰语", "阿拉伯语"]

/-- The display-label → prompt-name dictionary, `LANG_EN` in the source. -/
def LANG_EN : List (String × String) :=
  [("英语", "English"), ("法语", "French"), ("德语", "German"),
   ("意大利语", "Italian"), ("西班牙语", "Spanish"), ("俄语", "Russian"),
   ("葡萄牙语", "Portuguese"), ("捷克语", "Czech"), ("日语", "Japanese"),
   ("斯洛伐克语", "Slovak"), ("波兰语", "Polish"), ("匈牙利语", "Hungarian"),
   ("荷兰语", "Dutch"), ("乌克兰语", "Ukrainian"), ("阿拉伯语", "Arabic")]

/-- Pure dictionary lookup in `LANG_EN` (Python `dict.__getitem__` absent a
default): `none` when the display label is not configured. -/
def lookupLang (lang_cn : String) : Option String :=
  (LANG_EN.find? (fun p => p.1 = lang_cn)).map (fun p => p.2)

/-- Source `LANG_EN.get(lang_cn, lang_cn)` in `call_api`: look the display label up,
falling back to the label itself when it is not configured. -/
def langEnOf (lang_cn : String) : String :=
  (lookupLang lang_cn).getD lang_cn

/-- Input price `PRICE_IN_M`: 2 yuan per million tokens. -/
def PRICE_IN_M : ℚ := 2
/-- Output price `PRICE_OUT_M`: 8 yuan per million tokens. -/
def PRICE_OUT_M : ℚ := 8
/-- Worker-pool width `MAX_WORKERS`. -/
def MAX_WORKERS : Nat := 45

/-- Python `str.strip` on the underlying character list: drop whitespace from both
ends. -/
def stripChars (l : List Char) : List Char :=
  ((l.dropWhile Char.isWhitespace).reverse.dropWhile Char.isWhitespace).reverse

/-- Python `s.strip()` (whitespace modelled by `Char.isWhitespace`). -/
def strip (s : String) : String :=
  String.mk (stripChars s.data)

/-- Is `c` in the Han-ideograph range U+4E00–U+9FFF (`_RE_HAN`)? -/
def isHan (c : Char) : Bool :=
  0x4e00 ≤ c.toNat && c.toNat ≤ 0x9fff

/-- Is `c` in the Arabic range U+0600–U+06FF (`_RE_ARABIC`)? -/
def isArabicChar (c : Char) : Bool :=
  0x600 ≤ c.toNat && c.toNat ≤ 0x6ff

/-- Is `c` in the Cyrillic range U+0400–U+04FF (`_RE_CYR`)? -/
def isCyrChar (c : Char) : Bool :=
  0x400 ≤ c.toNat && c.toNat ≤ 0x4ff

/-- Search `_RE_HAN.search(s)`: does `s` contain a Han ideograph? -/
def hasHan (s : String) : Bool := s.data.any isHan

/-- Search `_RE_ARABIC.search(s)`: does `s` contain an Arabic-range character? -/
def hasArabic (s : String) : Bool := s.data.any isArabicChar

/-- Search `_RE_CYR.search(s)`: does `s` contain a Cyrillic-range character? -/
def hasCyr (s : String) : Bool := s.data.any isCyrChar

/-- The output validator `_lang_ok(lang_cn, out)`. Empty/whitespace-only
output is accepted; a non-Japanese target containing a Han ideograph is
rejected; Arabic requires an Arabic-range character; Russian/Ukrainian
require a Cyrillic-range character; Japanese and everything else accepted. -/
def lang_ok (lang_cn : String) (out : String) : Bool :=
  let s := strip out
  if s = "" then true
  else if lang_cn ≠ "日语" && hasHan s then false
  else if lang_cn = "阿拉伯语" && !hasArabic s then false
  else if (lang_cn = "俄语" || lang_cn = "乌克兰语") && !hasCyr s then false
  else if lang_cn = "日语" then true
  else true

/-- One raw completion-endpoint response: message content plus the usage
counters (`prompt_tokens`, `completion_tokens`, already defaulted to 0). -/
structure ApiResp where
  text : String
  promptTokens : Nat
  completionTokens : Nat
  deriving DecidableEq, Repr

/-- Outcome of one network attempt: an exception (network error, timeout,
rate limit) or a response. -/
inductive ApiOutcome where
  | err : String → ApiOutcome
  | ok : ApiResp → ApiOutcome
  deriving DecidableEq, Repr

/-- A successful `call_api` return value: `{"text": ..., "in": ..., "out": ...}`. -/
structure CallRes where
  text : String
  inTok : Nat
  outTok : Nat
  deriving DecidableEq, Repr

/-- One attempt of the body of `call_api`: propagate a network exception;
otherwise trim the response and validate it, raising `LANG_MISMATCH` (so the
retry decorator retries) when the validator rejects. -/
def attempt (lang_cn : String) (o : ApiOutcome) : Except String CallRes :=
  match o with
  | ApiOutcome.err e => Except.error e
  | ApiOutcome.ok r =>
    let out_text := strip r.text
    if lang_ok lang_cn out_text then
      Except.ok ⟨out_text, r.promptTokens, r.completionTokens⟩
    else
      Except.error ("LANG_MISMATCH: expected=" ++ langEnOf lang_cn ++ "(" ++ lang_cn ++ ")")

/-- Source `call_api` under `@retry(stop=stop_after_attempt(3), ...)`: up to three
attempts, consulting the oracle at attempt indices 0, 1, 2; returns the
result together with the number of attempts consumed. The `text` argument is
carried for fidelity with the source signature (the oracle already determines
the endpoint's responses). -/
def call_api (outcomes : Nat → ApiOutcome) (lang_cn : String) (text : String) :
    Except String CallRes × Nat :=
  let _ := text
  match attempt lang_cn (outcomes 0) with
  | Except.ok r => (Except.ok r, 1)
  | Except.error _ =>
    match attempt lang_cn (outcomes 1) with
    | Except.ok r => (Except.ok r, 2)
    | Except.error _ =>
      match attempt lang_cn (outcomes 2) with
      | Except.ok r => (Except.ok r, 3)
      | Except.error e => (Except.error e, 3)

/-- The blank-source test `pd.isna(text) or str(text).strip() == ""`. -/
def blank (text : Option String) : Bool :=
  match text with
  | none => true
  | some s => strip s == ""

/-- Python `str(text)` on a cell (`str(nan) = "nan"`; only reached on
non-blank cells). -/
def strOf (text : Option String) : String :=
  match text with
  | none => "nan"
  | some s => s

/-- A `do_job` return tuple `(row_idx, lang_cn, res, in_t, out_t)`. -/
structure JobOut where
  rowIdx : Nat
  lang : String
  res : String
  inTok : Nat
  outTok : Nat
  deriving DecidableEq, Repr

/-- One `logger.error` record: the row index, language and message of
`f"Error at Row {row_idx} [{lang_cn}]: {e}"`. -/
structure LogEntry where
  row : Nat
  lang : String
  msg : String
  deriving DecidableEq, Repr

/-- The per-cell worker `do_job(row_idx, lang_cn, text)`: blank source short-circuits to an empty
cell with zero tokens; the pass-through language 英语 copies the source text
verbatim with zero tokens; otherwise `call_api` runs, and on terminal failure
the sentinel "ERROR" is returned with zero tokens and one error log record. -/
def do_job (outcomes : Nat → ApiOutcome) (row_idx : Nat) (lang_cn : String)
    (text : Option String) : JobOut × List LogEntry :=
  if blank text then (⟨row_idx, lang_cn, "", 0, 0⟩, [])
  else if lang_cn = "英语" then (⟨row_idx, lang_cn, strOf text, 0, 0⟩, [])
  else
    match call_api outcomes lang_cn (strOf text) with
    | (Except.ok r, _) => (⟨row_idx, lang_cn, r.text, r.inTok, r.outTok⟩, [])
    | (Except.error e, _) => (⟨row_idx, lang_cn, "ERROR", 0, 0⟩, [⟨row_idx, lang_cn, e⟩])

/-- The in-memory spreadsheet: a column-name list in order, a row count, and
a cell function (a `none` cell is pandas NaN). -/
@[ext]
structure Table where
  nrows : Nat
  cols : List String
  cell : Nat → String → Option String

/-- The column creation `if lang not in df.columns: df[lang] = ""`: append the column and fill
every cell of it with the empty string. -/
def addLangCol (t : Table) (lang : String) : Table :=
  if lang ∈ t.cols then t
  else { t with cols := t.cols ++ [lang],
                cell := fun r c => if c = lang then some "" else t.cell r c }

/-- The column-creation loop `for lang in LANGS: ...` before any job runs. -/
def addLangCols (t : Table) : Table := LANGS.foldl addLangCol t

/-- The job set: one `(row, language)` pair per row index below `n` and per
configured language, enumerated row-major in configured language order. -/
def jobList (n : Nat) : List (Nat × String) :=
  (List.range n).flatMap (fun r => LANGS.map (fun l => (r, l)))

/-- The cell write `df.at[r_idx, lang] = res`: write one result into its own cell. -/
def writeCell (t : Table) (j : JobOut) : Table :=
  { t with cell := fun r c =>
      if r = j.rowIdx ∧ c = j.lang then some j.res else t.cell r c }

/-- Fold the collected results into the table, in the order given. -/
def writeResults (rs : List JobOut) (t : Table) : Table :=
  rs.foldl writeCell t

/-- The list `head = ["Original"] + LANGS` of the final reordering. -/
def headCols : List String := "Original" :: LANGS

/-- What `main` produces after all jobs complete: the reordered table, the
accumulated `stats` token totals, and the error-log records. -/
structure RunOut where
  table : Table
  inTok : Nat
  outTok : Nat
  logs : List LogEntry

/-- The key (row, language) of a result. -/
def keyOf (j : JobOut) : Nat × String := (j.rowIdx, j.lang)

/-- The `executor.submit(do_job, idx, lang, source)` loop: one `do_job`
outcome (result plus its log records) per (row, language) pair, the source
text read from the row's `Original` cell. -/
def jobOuts (oracle : Nat → String → Nat → ApiOutcome) (t1 : Table) :
    List (JobOut × List LogEntry) :=
  (jobList t1.nrows).map
    (fun j => do_job (oracle j.1 j.2) j.1 j.2 (t1.cell j.1 "Original"))

/-- The collected `f.result()` tuples, one per submitted job. -/
def runResults (oracle : Nat → String → Nat → ApiOutcome) (t1 : Table) : List JobOut :=
  (jobOuts oracle t1).map Prod.fst

/-- The final column reordering before saving: `df[head + tail]` with
`head = ["Original"] + LANGS` and `tail` the remaining original columns in
their original relative order. -/
def reorderCols (t2 : Table) : Table :=
  { t2 with cols := headCols ++ t2.cols.filter (fun c => decide (c ∉ headCols)) }

/-- The dispatch-and-collect part of `main` (after the `Original`-column
check): create the language columns, run `do_job` for every (row, language)
pair on the row's `Original` cell, write each result into its own cell,
accumulate token totals, reorder columns to `["Original"] + LANGS` followed
by the remaining original columns. The oracle gives, per row, language and
attempt index, the endpoint's outcome; completion order is modelled by the
submission order (order-independence is proved separately). -/
def run (oracle : Nat → String → Nat → ApiOutcome) (t : Table) : RunOut :=
  { table := reorderCols (writeResults (runResults oracle (addLangCols t)) (addLangCols t)),
    inTok := ((runResults oracle (addLangCols t)).map JobOut.inTok).sum,
    outTok := ((runResults oracle (addLangCols t)).map JobOut.outTok).sum,
    logs := (jobOuts oracle (addLangCols t)).flatMap Prod.snd }

/-- The final bill `cost_in + cost_out`: tokens divided by one million
times the per-million price. -/
def costOf (inTok outTok : Nat) : ℚ :=
  ((inTok : ℚ) / 1000000) * PRICE_IN_M + ((outTok : ℚ) / 1000000) * PRICE_OUT_M

/-- The `call_api` result a job would see (the job's row `Original` cell as
source text). -/
def jobApiRes (oracle : Nat → String → Nat → ApiOutcome) (t1 : Table)
    (j : Nat × String) : Except String CallRes :=
  (call_api (oracle j.1 j.2) j.2 (strOf (t1.cell j.1 "Original"))).1

/-- A successful non-pass-through job: non-blank source, not the 英语
pass-through, and `call_api` succeeded. -/
def jobSuccess (oracle : Nat → String → Nat → ApiOutcome) (t1 : Table)
    (j : Nat × String) : Bool :=
  !blank (t1.cell j.1 "Original") && !(j.2 == "英语") &&
    (jobApiRes oracle t1 j).toOption.isSome

/-- The input-token count reported by a job's successful API call. -/
def jobApiIn (oracle : Nat → String → Nat → ApiOutcome) (t1 : Table)
    (j : Nat × String) : Nat :=
  match jobApiRes oracle t1 j with
  | Except.ok cr => cr.inTok
  | Except.error _ => 0

/-- The output-token count reported by a job's successful API call. -/
def jobApiOut (oracle : Nat → String → Nat → ApiOutcome) (t1 : Table)
    (j : Nat × String) : Nat :=
  match jobApiRes oracle t1 j with
  | Except.ok cr => cr.outTok
  | Except.error _ => 0

/-- A one-row source table with an `Original` column, a `Note` extra column
and source text "hello". -/
def wTable : Table :=
  ⟨1, ["Original", "Note"],
   fun r c => if r = 0 ∧ c = "Original" then some "hello"
              else if r = 0 ∧ c = "Note" then some "n1" else none⟩

/-- An endpoint oracle whose every attempt raises a network error. -/
def wOracleErr : Nat → String → Nat → ApiOutcome := fun _ _ _ => ApiOutcome.err "net"

/-- An endpoint oracle with two successful jobs — 法语 with (100, 50) tokens
and 德语 with (200, 75) tokens — and failing attempts everywhere else. -/
def c8Oracle : Nat → String → Nat → ApiOutcome := fun _ l _ =>
  if l = "法语" then ApiOutcome.ok ⟨"Bonjour", 100, 50⟩
  else if l = "德语" then ApiOutcome.ok ⟨"Hallo", 200, 75⟩
  else ApiOutcome.err "net"

end Translator
namespace Translator

lemma mem_dropWhile_of_neg {p : Char → Bool} {c : Char} (hc : p c = false) :
    ∀ {l : List Char}, c ∈ l → c ∈ l.dropWhile p := by
  intro l h
  induction l with
  | nil => simp at h
  | cons a l ih =>
    rw [List.dropWhile]
    cases hpa : p a with
    | false => simpa using h
    | true =>
      simp only []
      rcases List.mem_cons.mp h with h1 | h2
      · subst h1; rw [hc] at hpa; exact absurd hpa (by simp)
      · exact ih h2

lemma mem_stripChars {c : Char} (hw : c.isWhitespace = false) {l : List Char}
    (h : c ∈ l) : c ∈ stripChars l := by
  unfold stripChars
  rw [List.mem_reverse]
  exact mem_dropWhile_of_neg hw (List.mem_reverse.mpr (mem_dropWhile_of_neg hw h))

lemma mem_of_mem_stripChars {c : Char} {l : List Char} (h : c ∈ stripChars l) :
    c ∈ l := by
  unfold stripChars at h
  rw [List.mem_reverse] at h
  have h1 := (List.dropWhile_sublist _).mem h
  rw [List.mem_reverse] at h1
  exact (List.dropWhile_sublist _).mem h1

lemma not_ws_of_big {c : Char} (h : 0x100 ≤ c.toNat) : c.isWhitespace = false := by
  by_contra hc
  simp only [Bool.not_eq_false] at hc
  simp only [Char.isWhitespace, Bool.or_eq_true, decide_eq_true_eq] at hc
  rcases hc with ((h1 | h1) | h1) | h1 <;> subst h1 <;> exact absurd h (by decide)

end Translator
namespace Translator

lemma strip_data (s : String) : (strip s).data = stripChars s.data := rfl

lemma strip_eq_empty_iff {s : String} : strip s = "" ↔ stripChars s.data = [] := by
  constructor
  · intro h
    have := congrArg String.data h
    simpa [strip_data] using this
  · intro h
    show String.mk (stripChars s.data) = ""
    rw [h]

lemma hasHan_strip {s : String} (h : hasHan s = true) : hasHan (strip s) = true := by
  rcases List.any_eq_true.mp h with ⟨c, hc, hhan⟩
  refine List.any_eq_true.mpr ⟨c, ?_, hhan⟩
  rw [strip_data]
  refine mem_stripChars ?_ hc
  refine not_ws_of_big ?_
  have h2 : 19968 <= c.toNat /\ c.toNat <= 40959 := by simpa [isHan] using hhan
  omega

lemma strip_ne_empty_of_hasHan {s : String} (h : hasHan s = true) : ¬ strip s = "" := by
  intro he
  have h2 := hasHan_strip h
  rcases List.any_eq_true.mp h2 with ⟨c, hc, _⟩
  rw [strip_data, strip_eq_empty_iff.mp he] at hc
  simp at hc

lemma hasArabic_strip_false {s : String} (h : hasArabic s = false) :
    hasArabic (strip s) = false := by
  by_contra hc
  simp only [Bool.not_eq_false] at hc
  rcases List.any_eq_true.mp hc with ⟨c, hcmem, har⟩
  rw [strip_data] at hcmem
  have : hasArabic s = true :=
    List.any_eq_true.mpr ⟨c, mem_of_mem_stripChars hcmem, har⟩
  rw [h] at this; exact absurd this (by simp)

lemma hasCyr_strip_false {s : String} (h : hasCyr s = false) :
    hasCyr (strip s) = false := by
  by_contra hc
  simp only [Bool.not_eq_false] at hc
  rcases List.any_eq_true.mp hc with ⟨c, hcmem, har⟩
  rw [strip_data] at hcmem
  have : hasCyr s = true :=
    List.any_eq_true.mpr ⟨c, mem_of_mem_stripChars hcmem, har⟩
  rw [h] at this; exact absurd this (by simp)

lemma lang_ok_false_of_hasHan {L s : String} (hL : L ≠ "日语")
    (h : hasHan s = true) : lang_ok L s = false := by
  unfold lang_ok
  rw [if_neg (strip_ne_empty_of_hasHan h)]
  rw [if_pos]
  simp [hL, hasHan_strip h]

lemma lang_ok_jp (s : String) : lang_ok "日语" s = true := by
  unfold lang_ok
  by_cases h1 : strip s = ""
  · simp [h1]
  · rw [if_neg h1]
    norm_num
    exact ⟨Or.inl (by decide), Or.inl ⟨by decide, by decide⟩⟩

end Translator
namespace Translator

lemma lang_ok_ar_false {s : String} (hne : ¬ strip s = "")
    (h : hasArabic s = false) : lang_ok "阿拉伯语" s = false := by
  unfold lang_ok
  rw [if_neg hne]
  by_cases hh : hasHan (strip s) = true
  · rw [if_pos (by simp [hh])]
  · rw [if_neg (by simp at hh; simp [hh])]
    rw [if_pos (by simp [hasArabic_strip_false h])]

lemma lang_ok_cyr_false {L s : String} (hL : L = "俄语" ∨ L = "乌克兰语")
    (hne : ¬ strip s = "") (h : hasCyr s = false) : lang_ok L s = false := by
  unfold lang_ok
  rw [if_neg hne]
  by_cases hh : hasHan (strip s) = true
  · rw [if_pos (by rcases hL with h1 | h1 <;> subst h1 <;> simp [hh])]
  · rw [if_neg (by simp at hh; simp [hh])]
    rw [if_neg (by rcases hL with h1 | h1 <;> subst h1 <;> simp)]
    rw [if_pos (by rcases hL with h1 | h1 <;> subst h1 <;> simp [hasCyr_strip_false h])]

lemma lang_ok_blank {L s : String} (h : strip s = "") : lang_ok L s = true := by
  unfold lang_ok
  rw [if_pos h]

end Translator
namespace Translator

/-- C2: for every target language other than the CJK-tolerant 日语 (Japanese),
`_lang_ok` rejects any candidate containing a Han ideograph (U+4E00–U+9FFF);
for the Japanese target the validator never rejects; and the spec's French
scenario candidate is accepted. -/
theorem C2_han_rejection_japanese_tolerance (L s s' : String)
    (hL : L ≠ "日语") (hh : hasHan s = true) :
    lang_ok L s = false ∧ lang_ok "日语" s' = true ∧
    lang_ok "法语" "Installez le pilote avant de redémarrer." = true :=
  ⟨lang_ok_false_of_hasHan hL hh, lang_ok_jp s', by decide⟩

theorem C2_witness :
    lang_ok "法语" "中文" = false ∧ lang_ok "日语" "日本語のテキスト" = true ∧
    lang_ok "法语" "Installez le pilote avant de redémarrer." = true :=
  C2_han_rejection_japanese_tolerance "法语" "中文" "日本語のテキスト"
    (by decide) (by decide)

/-- C3: a non-blank Arabic-target candidate without an Arabic-range character
is rejected; a non-blank Russian- or Ukrainian-target candidate without a
Cyrillic-range character is rejected; a blank (empty or whitespace-only)
candidate is accepted for every language. -/
theorem C3_script_requirements_and_blank (s₁ s₂ s₃ L : String)
    (h1 : ¬ strip s₁ = "") (h2 : hasArabic s₁ = false)
    (h3 : ¬ strip s₂ = "") (h4 : hasCyr s₂ = false)
    (h5 : strip s₃ = "") :
    lang_ok "阿拉伯语" s₁ = false ∧ lang_ok "俄语" s₂ = false ∧
    lang_ok "乌克兰语" s₂ = false ∧ lang_ok L s₃ = true :=
  ⟨lang_ok_ar_false h1 h2,
   lang_ok_cyr_false (Or.inl rfl) h3 h4,
   lang_ok_cyr_false (Or.inr rfl) h3 h4,
   lang_ok_blank h5⟩

theorem C3_witness :
    lang_ok "阿拉伯语" "hello" = false ∧ lang_ok "俄语" "bonjour" = false ∧
    lang_ok "乌克兰语" "bonjour" = false ∧ lang_ok "西班牙语" "  " = true :=
  C3_script_requirements_and_blank "hello" "bonjour" "  " "西班牙语"
    (by decide) (by decide) (by decide) (by decide) (by decide)

/-- C10: the Han-ideograph rejection takes precedence over the positive
script checks: a candidate containing a Han ideograph is rejected for the
Arabic, Russian and Ukrainian targets — and for every configured non-Japanese
target — even when it also contains the required Arabic-range and
Cyrillic-range characters. -/
theorem C10_han_precedence (s L : String) (hh : hasHan s = true)
    (ha : hasArabic s = true) (hc : hasCyr s = true)
    (hL1 : L ∈ LANGS) (hL2 : L ≠ "日语") :
    lang_ok "阿拉伯语" s = false ∧ lang_ok "俄语" s = false ∧
    lang_ok "乌克兰语" s = false ∧ lang_ok L s = false :=
  ⟨lang_ok_false_of_hasHan (by decide) hh,
   lang_ok_false_of_hasHan (by decide) hh,
   lang_ok_false_of_hasHan (by decide) hh,
   lang_ok_false_of_hasHan hL2 hh⟩

theorem C10_witness :
    lang_ok "阿拉伯语" "中ب б" = false ∧ lang_ok "俄语" "中ب б" = false ∧
    lang_ok "乌克兰语" "中ب б" = false ∧ lang_ok "德语" "中ب б" = false :=
  C10_han_precedence "中ب б" "德语" (by decide) (by decide) (by decide)
    (by decide) (by decide)

end Translator
namespace Translator

/-- C5 counterexample: the display label 世界语 (Esperanto) is not configured
in the registry, yet `call_api` does not fail with an unknown-language error:
the lookup falls back to the label itself and the call succeeds. -/
theorem C5_counterexample :
    lookupLang "世界语" = none ∧ langEnOf "世界语" = "世界语" ∧
    (call_api (fun _ => ApiOutcome.ok ⟨"saluton", 1, 1⟩) "世界语" "你好").1 =
      Except.ok ⟨"saluton", 1, 1⟩ :=
  ⟨by decide, by decide, rfl⟩

/-- C5 amended: looking up a display label that is not configured in the
registry does not fail — `LANG_EN.get(lang_cn, lang_cn)` falls back to the
display label itself as the prompt name. -/
theorem C5_lookup_fallback (l : String) (h : lookupLang l = none) :
    langEnOf l = l := by
  unfold langEnOf
  rw [h]
  rfl

theorem C5_witness : langEnOf "俄文" = "俄文" :=
  C5_lookup_fallback "俄文" (by decide)

/-- C6: for a non-blank source cell, the pass-through language 英语 returns
the source text verbatim with zero input and output tokens and no log line,
and the result does not depend on the endpoint oracle (no network call). -/
theorem C6_passthrough (o o' : Nat → ApiOutcome) (r : Nat) (text : Option String)
    (h : blank text = false) :
    do_job o r "英语" text = (⟨r, "英语", strOf text, 0, 0⟩, []) ∧
    do_job o r "英语" text = do_job o' r "英语" text := by
  constructor
  · simp [do_job, h]
  · simp [do_job, h]

theorem C6_witness :
    do_job (fun _ => ApiOutcome.err "net") 0 "英语" (some "hello") =
      (⟨0, "英语", "hello", 0, 0⟩, []) ∧
    do_job (fun _ => ApiOutcome.err "net") 0 "英语" (some "hello") =
      do_job (fun _ => ApiOutcome.ok ⟨"echo", 7, 9⟩) 0 "英语" (some "hello") :=
  C6_passthrough (fun _ => ApiOutcome.err "net") (fun _ => ApiOutcome.ok ⟨"echo", 7, 9⟩)
    0 (some "hello") (by decide)

/-- C9: for a blank source cell (missing, empty, or whitespace-only) and any
language, the job returns an empty output cell with zero tokens and no log
line, independent of the endpoint oracle (no API call is attempted). -/
theorem C9_blank_source (o o' : Nat → ApiOutcome) (r : Nat) (L : String)
    (text : Option String) (h : blank text = true) :
    do_job o r L text = (⟨r, L, "", 0, 0⟩, []) ∧
    do_job o r L text = do_job o' r L text := by
  constructor
  · simp [do_job, h]
  · simp [do_job, h]

theorem C9_witness :
    do_job (fun _ => ApiOutcome.ok ⟨"echo", 7, 9⟩) 2 "法语" (some "   ") =
      (⟨2, "法语", "", 0, 0⟩, []) ∧
    do_job (fun _ => ApiOutcome.ok ⟨"echo", 7, 9⟩) 2 "法语" (some "   ") =
      do_job (fun _ => ApiOutcome.err "net") 2 "法语" (some "   ") :=
  C9_blank_source (fun _ => ApiOutcome.ok ⟨"echo", 7, 9⟩) (fun _ => ApiOutcome.err "net")
    2 "法语" (some "   ") (by decide)

end Translator
namespace Translator

lemma addLangCol_nrows (t : Table) (lang : String) :
    (addLangCol t lang).nrows = t.nrows := by
  unfold addLangCol
  split <;> rfl

lemma foldl_addLangCol_nrows (l : List String) (t : Table) :
    (l.foldl addLangCol t).nrows = t.nrows := by
  induction l generalizing t with
  | nil => rfl
  | cons a l ih => rw [List.foldl_cons, ih, addLangCol_nrows]

lemma addLangCols_nrows (t : Table) : (addLangCols t).nrows = t.nrows := by
  unfold addLangCols
  exact foldl_addLangCol_nrows LANGS t

lemma addLangCol_cell_ne (t : Table) {lang c : String} (h : c ≠ lang) (r : Nat) :
    (addLangCol t lang).cell r c = t.cell r c := by
  unfold addLangCol
  split
  · rfl
  · simp [h]

lemma foldl_addLangCol_cell_notin {c : String} (r : Nat) :
    ∀ (l : List String) (t : Table), c ∉ l →
      (l.foldl addLangCol t).cell r c = t.cell r c := by
  intro l
  induction l with
  | nil => intro t _; rfl
  | cons a l ih =>
    intro t h
    rw [List.foldl_cons, ih (addLangCol t a) (fun hc => h (List.mem_cons_of_mem a hc))]
    exact addLangCol_cell_ne t (fun hc => h (by rw [hc]; exact List.mem_cons_self a l)) r

lemma original_notin_LANGS : ("Original" : String) ∉ LANGS := by simp [LANGS]

lemma addLangCols_cell_original (t : Table) (r : Nat) :
    (addLangCols t).cell r "Original" = t.cell r "Original" := by
  unfold addLangCols
  exact foldl_addLangCol_cell_notin r LANGS t original_notin_LANGS

lemma addLangCol_cols (t : Table) (lang : String) :
    (addLangCol t lang).cols =
      if lang ∈ t.cols then t.cols else t.cols ++ [lang] := by
  unfold addLangCol
  split <;> rfl

lemma addLangCol_mem_cols (t : Table) (lang c : String) :
    c ∈ (addLangCol t lang).cols ↔ c ∈ t.cols ∨ c = lang := by
  rw [addLangCol_cols]
  by_cases h : lang ∈ t.cols
  · rw [if_pos h]
    constructor
    · exact fun hc => Or.inl hc
    · rintro (hc | hc)
      · exact hc
      · exact hc ▸ h
  · rw [if_neg h]
    simp

lemma foldl_addLangCol_mem_cols (c : String) :
    ∀ (l : List String) (t : Table),
      c ∈ (l.foldl addLangCol t).cols ↔ c ∈ t.cols ∨ c ∈ l := by
  intro l
  induction l with
  | nil => intro t; simp
  | cons a l ih =>
    intro t
    rw [List.foldl_cons, ih, addLangCol_mem_cols]
    constructor
    · rintro ((h | h) | h)
      · exact Or.inl h
      · exact Or.inr (h ▸ List.mem_cons_self a l)
      · exact Or.inr (List.mem_cons_of_mem a h)
    · rintro (h | h)
      · exact Or.inl (Or.inl h)
      · rcases List.mem_cons.mp h with h1 | h1
        · exact Or.inl (Or.inr h1)
        · exact Or.inr h1

lemma addLangCols_mem_cols (t : Table) (c : String) :
    c ∈ (addLangCols t).cols ↔ c ∈ t.cols ∨ c ∈ LANGS := by
  unfold addLangCols
  exact foldl_addLangCol_mem_cols c LANGS t

lemma foldl_addLangCol_cols_structure :
    ∀ (l : List String) (t : Table),
      ∃ ex, (l.foldl addLangCol t).cols = t.cols ++ ex ∧ ∀ c ∈ ex, c ∈ l := by
  intro l
  induction l with
  | nil => intro t; exact ⟨[], by simp⟩
  | cons a l ih =>
    intro t
    rw [List.foldl_cons]
    rcases ih (addLangCol t a) with ⟨ex, hex, hsub⟩
    rw [addLangCol_cols] at hex
    by_cases h : a ∈ t.cols
    · rw [if_pos h] at hex
      exact ⟨ex, hex, fun c hc => List.mem_cons_of_mem a (hsub c hc)⟩
    · rw [if_neg h] at hex
      refine ⟨a :: ex, by simpa using hex, ?_⟩
      intro c hc
      rcases List.mem_cons.mp hc with h1 | h1
      · exact h1 ▸ List.mem_cons_self a l
      · exact List.mem_cons_of_mem a (hsub c h1)

lemma addLangCols_cols_structure (t : Table) :
    ∃ ex, (addLangCols t).cols = t.cols ++ ex ∧ ∀ c ∈ ex, c ∈ LANGS := by
  unfold addLangCols
  exact foldl_addLangCol_cols_structure LANGS t

lemma writeCell_nrows (t : Table) (j : JobOut) : (writeCell t j).nrows = t.nrows := rfl

lemma writeCell_cols (t : Table) (j : JobOut) : (writeCell t j).cols = t.cols := rfl

lemma writeCell_cell_ne (t : Table) (j : JobOut) {r : Nat} {c : String}
    (h : ¬ (r = j.rowIdx ∧ c = j.lang)) : (writeCell t j).cell r c = t.cell r c := by
  unfold writeCell
  simp only []
  rw [if_neg h]

lemma writeCell_cell_eq (t : Table) (j : JobOut) :
    (writeCell t j).cell j.rowIdx j.lang = some j.res := by
  unfold writeCell
  simp

lemma writeResults_nrows (rs : List JobOut) :
    ∀ t : Table, (writeResults rs t).nrows = t.nrows := by
  induction rs with
  | nil => intro t; rfl
  | cons a rs ih =>
    intro t
    unfold writeResults at ih ⊢
    rw [List.foldl_cons, ih]
    rfl

lemma writeResults_cols (rs : List JobOut) :
    ∀ t : Table, (writeResults rs t).cols = t.cols := by
  induction rs with
  | nil => intro t; rfl
  | cons a rs ih =>
    intro t
    unfold writeResults at ih ⊢
    rw [List.foldl_cons, ih]
    rfl

lemma writeResults_cell_notin (rs : List JobOut) {r : Nat} {c : String} :
    ∀ t : Table, (r, c) ∉ rs.map keyOf →
      (writeResults rs t).cell r c = t.cell r c := by
  induction rs with
  | nil => intro t _; rfl
  | cons a rs ih =>
    intro t h
    rw [List.map_cons] at h
    unfold writeResults at ih ⊢
    rw [List.foldl_cons, ih (writeCell t a) (fun hc => h (List.mem_cons_of_mem _ hc))]
    refine writeCell_cell_ne t a (fun hc => h ?_)
    have : (r, c) = keyOf a := by
      unfold keyOf
      rw [hc.1, hc.2]
    rw [this]
    exact List.mem_cons_self _ _

lemma writeResults_cell_of_mem (rs : List JobOut) {j : JobOut} :
    ∀ t : Table, (rs.map keyOf).Nodup → j ∈ rs →
      (writeResults rs t).cell j.rowIdx j.lang = some j.res := by
  induction rs with
  | nil => intro t _ h; simp at h
  | cons a rs ih =>
    intro t hnd hmem
    rw [List.map_cons, List.nodup_cons] at hnd
    unfold writeResults at ih ⊢
    rw [List.foldl_cons]
    rcases List.mem_cons.mp hmem with h1 | h1
    · subst h1
      have hni : (j.rowIdx, j.lang) ∉ rs.map keyOf := hnd.1
      have := writeResults_cell_notin rs (writeCell t j) hni
      unfold writeResults at this
      rw [this]
      exact writeCell_cell_eq t j
    · exact ih (writeCell t a) hnd.2 h1

lemma jobList_eq_product (n : Nat) : jobList n = (List.range n) ×ˢ LANGS := rfl

lemma LANGS_nodup : LANGS.Nodup := by simp [LANGS]

lemma jobList_nodup (n : Nat) : (jobList n).Nodup := by
  rw [jobList_eq_product]
  exact (List.nodup_range n).product LANGS_nodup

lemma mem_jobList {n : Nat} {r : Nat} {L : String} :
    (r, L) ∈ jobList n ↔ r < n ∧ L ∈ LANGS := by
  have h : jobList n = (List.range n).product LANGS := rfl
  rw [h, List.pair_mem_product, List.mem_range]

lemma count_eq_one_of_nodup_mem {α : Type} [BEq α] [LawfulBEq α] {l : List α}
    {a : α} (hnd : l.Nodup) (hm : a ∈ l) : l.count a = 1 := by
  induction l with
  | nil => simp at hm
  | cons b l ih =>
    rw [List.nodup_cons] at hnd
    rw [List.count_cons]
    rcases List.mem_cons.mp hm with h1 | h1
    · subst h1
      rw [if_pos (beq_self_eq_true a), List.count_eq_zero.mpr hnd.1]
    · have hne : (b == a) = false := by
        refine beq_eq_false_iff_ne.mpr ?_
        intro he
        exact hnd.1 (he ▸ h1)
      rw [if_neg (by rw [hne]; exact Bool.false_ne_true), ih hnd.2 h1]

lemma jobList_count {n : Nat} {r : Nat} {L : String} (hr : r < n) (hL : L ∈ LANGS) :
    (jobList n).count (r, L) = 1 :=
  count_eq_one_of_nodup_mem (jobList_nodup n) (mem_jobList.mpr ⟨hr, hL⟩)

lemma do_job_key (o : Nat → ApiOutcome) (r : Nat) (L : String) (text : Option String) :
    keyOf (do_job o r L text).1 = (r, L) := by
  unfold do_job keyOf
  split
  · rfl
  · split
    · rfl
    · split <;> rfl

lemma do_job_logs_key (o : Nat → ApiOutcome) (r : Nat) (L : String)
    (text : Option String) {e : LogEntry} (h : e ∈ (do_job o r L text).2) :
    e.row = r ∧ e.lang = L := by
  unfold do_job at h
  split at h
  · simp at h
  · split at h
    · simp at h
    · split at h
      · simp at h
      · rcases List.mem_singleton.mp h with h1
        rw [h1]
        exact ⟨rfl, rfl⟩

lemma do_job_rowIdx (o : Nat → ApiOutcome) (r : Nat) (L : String) (text : Option String) :
    (do_job o r L text).1.rowIdx = r :=
  congrArg Prod.fst (do_job_key o r L text)

lemma do_job_lang (o : Nat → ApiOutcome) (r : Nat) (L : String) (text : Option String) :
    (do_job o r L text).1.lang = L :=
  congrArg Prod.snd (do_job_key o r L text)

lemma results_keys (oracle : Nat → String → Nat → ApiOutcome) (t1 : Table) :
    (((jobOuts oracle t1).map Prod.fst).map keyOf) = jobList t1.nrows := by
  unfold jobOuts
  rw [List.map_map, List.map_map]
  have h : ∀ j ∈ jobList t1.nrows,
      ((keyOf ∘ Prod.fst) ∘ fun j => do_job (oracle j.1 j.2) j.1 j.2 (t1.cell j.1 "Original")) j
        = id j := by
    intro j _
    show keyOf (do_job (oracle j.1 j.2) j.1 j.2 (t1.cell j.1 "Original")).1 = j
    rw [do_job_key]
  rw [List.map_congr_left h, List.map_id]

lemma run_eq (oracle : Nat → String → Nat → ApiOutcome) (t : Table) :
    run oracle t =
    { table := reorderCols (writeResults (runResults oracle (addLangCols t)) (addLangCols t)),
      inTok := ((runResults oracle (addLangCols t)).map JobOut.inTok).sum,
      outTok := ((runResults oracle (addLangCols t)).map JobOut.outTok).sum,
      logs := (jobOuts oracle (addLangCols t)).flatMap Prod.snd } := rfl

lemma run_table_eq (oracle : Nat → String → Nat → ApiOutcome) (t : Table) :
    (run oracle t).table =
      reorderCols (writeResults (runResults oracle (addLangCols t)) (addLangCols t)) := by
  rw [run_eq]

lemma run_logs_eq (oracle : Nat → String → Nat → ApiOutcome) (t : Table) :
    (run oracle t).logs = (jobOuts oracle (addLangCols t)).flatMap Prod.snd := by
  rw [run_eq]

lemma run_inTok_eq (oracle : Nat → String → Nat → ApiOutcome) (t : Table) :
    (run oracle t).inTok = ((runResults oracle (addLangCols t)).map JobOut.inTok).sum := by
  rw [run_eq]

lemma run_outTok_eq (oracle : Nat → String → Nat → ApiOutcome) (t : Table) :
    (run oracle t).outTok = ((runResults oracle (addLangCols t)).map JobOut.outTok).sum := by
  rw [run_eq]

lemma reorderCols_cell (t2 : Table) : (reorderCols t2).cell = t2.cell := rfl

lemma reorderCols_cols (t2 : Table) :
    (reorderCols t2).cols = headCols ++ t2.cols.filter (fun c => decide (c ∉ headCols)) := rfl

lemma mem_runResults (oracle : Nat → String → Nat → ApiOutcome) (t1 : Table)
    {r : Nat} {L : String} (h : (r, L) ∈ jobList t1.nrows) :
    (do_job (oracle r L) r L (t1.cell r "Original")).1 ∈ runResults oracle t1 := by
  unfold runResults jobOuts
  exact List.mem_map.mpr
    ⟨do_job (oracle r L) r L (t1.cell r "Original"), List.mem_map.mpr ⟨(r, L), h, rfl⟩, rfl⟩

lemma runResults_keys_nodup (oracle : Nat → String → Nat → ApiOutcome) (t1 : Table) :
    ((runResults oracle t1).map keyOf).Nodup := by
  unfold runResults
  rw [results_keys]
  exact jobList_nodup t1.nrows

lemma writeResults_runResults_cell (oracle : Nat → String → Nat → ApiOutcome)
    (t1 : Table) {r : Nat} {L : String} (hr : r < t1.nrows) (hL : L ∈ LANGS) :
    (writeResults (runResults oracle t1) t1).cell r L =
      some ((do_job (oracle r L) r L (t1.cell r "Original")).1.res) := by
  have hcell := writeResults_cell_of_mem (runResults oracle t1) t1
    (runResults_keys_nodup oracle t1) (mem_runResults oracle t1 (mem_jobList.mpr ⟨hr, hL⟩))
  rw [do_job_rowIdx, do_job_lang] at hcell
  exact hcell

lemma run_table_cell (oracle : Nat → String → Nat → ApiOutcome) (t : Table)
    {r : Nat} {L : String} (hr : r < t.nrows) (hL : L ∈ LANGS) :
    (run oracle t).table.cell r L =
      some ((do_job (oracle r L) r L ((addLangCols t).cell r "Original")).1.res) := by
  rw [run_table_eq, reorderCols_cell]
  exact writeResults_runResults_cell oracle (addLangCols t)
    (by rw [addLangCols_nrows]; exact hr) hL

lemma filter_headCols_eq_nil {ex : List String} (hsub : ∀ c ∈ ex, c ∈ LANGS) :
    ex.filter (fun c => decide (c ∉ headCols)) = [] := by
  refine List.filter_eq_nil_iff.mpr ?_
  intro c hc
  simp only [decide_eq_true_eq, Decidable.not_not]
  exact List.mem_cons_of_mem _ (hsub c hc)

lemma run_table_cols (oracle : Nat → String → Nat → ApiOutcome) (t : Table) :
    (run oracle t).table.cols =
      headCols ++ t.cols.filter (fun c => decide (c ∉ headCols)) := by
  rw [run_table_eq, reorderCols_cols, writeResults_cols]
  rcases addLangCols_cols_structure t with ⟨ex, hex, hsub⟩
  rw [hex, List.filter_append, filter_headCols_eq_nil hsub, List.append_nil]

lemma mem_headCols {c : String} : c ∈ headCols ↔ c = "Original" ∨ c ∈ LANGS := by
  unfold headCols
  exact List.mem_cons

lemma run_mem_cols (oracle : Nat → String → Nat → ApiOutcome) (t : Table)
    (c : String) (hO : "Original" ∈ t.cols) :
    c ∈ (run oracle t).table.cols ↔ (c ∈ t.cols ∨ c ∈ LANGS) := by
  rw [run_table_cols, List.mem_append]
  constructor
  · rintro (h | h)
    · rcases mem_headCols.mp h with h1 | h1
      · exact Or.inl (h1 ▸ hO)
      · exact Or.inr h1
    · exact Or.inl (List.mem_filter.mp h).1
  · intro h
    by_cases hch : c ∈ headCols
    · exact Or.inl hch
    · rcases h with h1 | h1
      · exact Or.inr (List.mem_filter.mpr ⟨h1, by simpa using hch⟩)
      · exact absurd (mem_headCols.mpr (Or.inr h1)) hch

lemma run_cols_count (oracle : Nat → String → Nat → ApiOutcome) (t : Table)
    {L : String} (hL : L ∈ LANGS) : (run oracle t).table.cols.count L = 1 := by
  rw [run_table_cols, List.count_append]
  have h1 : headCols.count L = 1 := by
    unfold headCols
    rw [List.count_cons]
    have hne : (("Original" : String) == L) = false := by
      refine beq_eq_false_iff_ne.mpr ?_
      intro he
      exact original_notin_LANGS (he ▸ hL)
    rw [if_neg (by rw [hne]; exact Bool.false_ne_true),
      count_eq_one_of_nodup_mem LANGS_nodup hL]
  have h2 : (t.cols.filter (fun c => decide (c ∉ headCols))).count L = 0 := by
    refine List.count_eq_zero.mpr ?_
    intro hmem
    have := (List.mem_filter.mp hmem).2
    simp only [decide_eq_true_eq] at this
    exact this (mem_headCols.mpr (Or.inr hL))
  rw [h1, h2]

/-- C1: for every run that completes (the source table has the `Original`
column), every (row, configured language) pair is enumerated exactly once as
a job, the final table holds that job's result at that cell (non-null, no job
dropped), and the final column set is exactly the original columns plus one
column per configured language. -/
theorem C1_every_pair_written (oracle : Nat → String → Nat → ApiOutcome)
    (t : Table) (r : Nat) (L c : String)
    (hO : "Original" ∈ t.cols) (hr : r < t.nrows) (hL : L ∈ LANGS) :
    (jobList t.nrows).count (r, L) = 1 ∧
    (run oracle t).table.cell r L =
      some ((do_job (oracle r L) r L ((addLangCols t).cell r "Original")).1.res) ∧
    (c ∈ (run oracle t).table.cols ↔ (c ∈ t.cols ∨ c ∈ LANGS)) ∧
    (run oracle t).table.cols.count L = 1 :=
  ⟨jobList_count hr hL, run_table_cell oracle t hr hL,
   run_mem_cols oracle t c hO, run_cols_count oracle t hL⟩

theorem C1_witness :
    (jobList wTable.nrows).count (0, "法语") = 1 ∧
    (run wOracleErr wTable).table.cell 0 "法语" =
      some ((do_job (wOracleErr 0 "法语") 0 "法语"
        ((addLangCols wTable).cell 0 "Original")).1.res) ∧
    ("Note" ∈ (run wOracleErr wTable).table.cols ↔
      ("Note" ∈ wTable.cols ∨ "Note" ∈ LANGS)) ∧
    (run wOracleErr wTable).table.cols.count "法语" = 1 :=
  C1_every_pair_written wOracleErr wTable 0 "法语" "Note"
    (by decide) (by decide) (by decide)

lemma writeResults_cons (x : JobOut) (rs : List JobOut) (t : Table) :
    writeResults (x :: rs) t = writeResults rs (writeCell t x) := rfl

lemma writeCell_comm {x y : JobOut} (h : keyOf x ≠ keyOf y) (t : Table) :
    writeCell (writeCell t x) y = writeCell (writeCell t y) x := by
  unfold writeCell
  refine Table.ext rfl rfl ?_
  funext r c
  simp only []
  by_cases h1 : r = y.rowIdx ∧ c = y.lang
  · rw [if_pos h1]
    by_cases h2 : r = x.rowIdx ∧ c = x.lang
    · exfalso
      refine h ?_
      unfold keyOf
      rw [← h2.1, ← h2.2, h1.1, h1.2]
    · rw [if_neg h2, if_pos h1]
  · rw [if_neg h1]
    by_cases h2 : r = x.rowIdx ∧ c = x.lang
    · rw [if_pos h2, if_pos h2]
    · rw [if_neg h2, if_neg h2, if_neg h1]

lemma writeResults_perm {rs rs' : List JobOut} (hperm : rs.Perm rs') :
    (rs.map keyOf).Nodup → ∀ t : Table, writeResults rs t = writeResults rs' t := by
  induction hperm with
  | nil => intro _ t; rfl
  | cons x h ih =>
    intro hnd t
    rw [List.map_cons, List.nodup_cons] at hnd
    rw [writeResults_cons, writeResults_cons]
    exact ih hnd.2 (writeCell t x)
  | swap x y l =>
    intro hnd t
    rw [List.map_cons, List.map_cons, List.nodup_cons, List.mem_cons] at hnd
    have hxy : keyOf x ≠ keyOf y := by
      intro he
      exact hnd.1 (Or.inl he.symm)
    rw [writeResults_cons, writeResults_cons, writeResults_cons, writeResults_cons,
      writeCell_comm hxy t]
  | trans h12 h23 ih1 ih2 =>
    intro hnd t
    rw [ih1 hnd t]
    exact ih2 (((h12.map keyOf).nodup_iff).mp hnd) t

/-- C7: the final table is independent of job completion order — folding any
permutation of the collected results into the table yields the same table
(results have pairwise-distinct (row, language) keys) — and the output
column order is always the source column, then the configured languages in
registry order, then the pre-existing extra columns in original order. -/
theorem C7_completion_order_independence (rs rs' : List JobOut) (u : Table)
    (oracle : Nat → String → Nat → ApiOutcome) (t : Table)
    (hperm : rs.Perm rs') (hnd : (rs.map keyOf).Nodup) :
    writeResults rs u = writeResults rs' u ∧
    (run oracle t).table.cols =
      headCols ++ t.cols.filter (fun c => decide (c ∉ headCols)) :=
  ⟨writeResults_perm hperm hnd u, run_table_cols oracle t⟩

theorem C7_witness :
    writeResults [⟨0, "法语", "a", 1, 1⟩, ⟨0, "德语", "b", 2, 2⟩] wTable =
      writeResults [⟨0, "德语", "b", 2, 2⟩, ⟨0, "法语", "a", 1, 1⟩] wTable ∧
    (run wOracleErr wTable).table.cols =
      headCols ++ wTable.cols.filter (fun c => decide (c ∉ headCols)) :=
  C7_completion_order_independence
    [⟨0, "法语", "a", 1, 1⟩, ⟨0, "德语", "b", 2, 2⟩]
    [⟨0, "德语", "b", 2, 2⟩, ⟨0, "法语", "a", 1, 1⟩]
    wTable wOracleErr wTable (by decide) (by decide)

lemma do_job_inTok (oracle : Nat → String → Nat → ApiOutcome) (t1 : Table)
    (j : Nat × String) :
    (do_job (oracle j.1 j.2) j.1 j.2 (t1.cell j.1 "Original")).1.inTok =
      if jobSuccess oracle t1 j then jobApiIn oracle t1 j else 0 := by
  unfold jobSuccess jobApiIn jobApiRes do_job
  by_cases hb : blank (t1.cell j.1 "Original") = true
  · simp [hb]
  · simp only [Bool.not_eq_true] at hb
    rw [if_neg (by rw [hb]; exact Bool.false_ne_true)]
    by_cases he : j.2 = "英语"
    · simp [hb, he]
    · rw [if_neg he]
      rcases hres : call_api (oracle j.1 j.2) j.2 (strOf (t1.cell j.1 "Original"))
        with ⟨res, n⟩
      cases res with
      | ok cr => simp [hb, he, hres, Except.toOption]
      | error e => simp [hb, he, hres, Except.toOption]

lemma do_job_outTok (oracle : Nat → String → Nat → ApiOutcome) (t1 : Table)
    (j : Nat × String) :
    (do_job (oracle j.1 j.2) j.1 j.2 (t1.cell j.1 "Original")).1.outTok =
      if jobSuccess oracle t1 j then jobApiOut oracle t1 j else 0 := by
  unfold jobSuccess jobApiOut jobApiRes do_job
  by_cases hb : blank (t1.cell j.1 "Original") = true
  · simp [hb]
  · simp only [Bool.not_eq_true] at hb
    rw [if_neg (by rw [hb]; exact Bool.false_ne_true)]
    by_cases he : j.2 = "英语"
    · simp [hb, he]
    · rw [if_neg he]
      rcases hres : call_api (oracle j.1 j.2) j.2 (strOf (t1.cell j.1 "Original"))
        with ⟨res, n⟩
      cases res with
      | ok cr => simp [hb, he, hres, Except.toOption]
      | error e => simp [hb, he, hres, Except.toOption]

lemma sum_map_ite {α : Type} (l : List α) (p : α → Bool) (f : α → Nat) :
    (l.map (fun a => if p a then f a else 0)).sum = ((l.filter p).map f).sum := by
  induction l with
  | nil => rfl
  | cons a l ih =>
    rw [List.map_cons, List.sum_cons, List.filter_cons]
    by_cases h : p a
    · rw [if_pos h, if_pos h, List.map_cons, List.sum_cons, ih]
    · rw [if_neg h, if_neg h, ih, Nat.zero_add]

lemma runResults_inTok (oracle : Nat → String → Nat → ApiOutcome) (t1 : Table) :
    ((runResults oracle t1).map JobOut.inTok).sum =
      (((jobList t1.nrows).filter (jobSuccess oracle t1)).map (jobApiIn oracle t1)).sum := by
  unfold runResults jobOuts
  rw [List.map_map, List.map_map]
  have h : ∀ j ∈ jobList t1.nrows,
      ((JobOut.inTok ∘ Prod.fst) ∘
        fun j => do_job (oracle j.1 j.2) j.1 j.2 (t1.cell j.1 "Original")) j
      = (fun j => if jobSuccess oracle t1 j then jobApiIn oracle t1 j else 0) j :=
    fun j _ => do_job_inTok oracle t1 j
  rw [List.map_congr_left h, sum_map_ite]

lemma runResults_outTok (oracle : Nat → String → Nat → ApiOutcome) (t1 : Table) :
    ((runResults oracle t1).map JobOut.outTok).sum =
      (((jobList t1.nrows).filter (jobSuccess oracle t1)).map (jobApiOut oracle t1)).sum := by
  unfold runResults jobOuts
  rw [List.map_map, List.map_map]
  have h : ∀ j ∈ jobList t1.nrows,
      ((JobOut.outTok ∘ Prod.fst) ∘
        fun j => do_job (oracle j.1 j.2) j.1 j.2 (t1.cell j.1 "Original")) j
      = (fun j => if jobSuccess oracle t1 j then jobApiOut oracle t1 j else 0) j :=
    fun j _ => do_job_outTok oracle t1 j
  rw [List.map_congr_left h, sum_map_ite]

/-- C8: the accumulated Usage Totals equal the sum of input/output token
counts over exactly the successful non-pass-through jobs (failed,
pass-through 英语 and blank-source jobs each report zero tokens), the
reported cost is tokens over one million times the per-million price
(2.0 in, 8.0 out), and on the spec's example — two successful jobs with
(100, 50) and (200, 75) tokens — the totals are (300, 125). -/
theorem C8_usage_totals (oracle : Nat → String → Nat → ApiOutcome) (t : Table) :
    (run oracle t).inTok =
      (((jobList t.nrows).filter (jobSuccess oracle (addLangCols t))).map
        (jobApiIn oracle (addLangCols t))).sum ∧
    (run oracle t).outTok =
      (((jobList t.nrows).filter (jobSuccess oracle (addLangCols t))).map
        (jobApiOut oracle (addLangCols t))).sum ∧
    costOf (run oracle t).inTok (run oracle t).outTok =
      ((run oracle t).inTok : ℚ) / 1000000 * 2 +
        ((run oracle t).outTok : ℚ) / 1000000 * 8 ∧
    (run c8Oracle wTable).inTok = 300 ∧
    (run c8Oracle wTable).outTok = 125 ∧
    costOf 300 125 = (300 : ℚ) / 1000000 * 2 + (125 : ℚ) / 1000000 * 8 := by
  refine ⟨?_, ?_, ?_, ?_, ?_, ?_⟩
  · rw [run_inTok_eq, runResults_inTok, addLangCols_nrows]
  · rw [run_outTok_eq, runResults_outTok, addLangCols_nrows]
  · norm_num [costOf, PRICE_IN_M, PRICE_OUT_M]
  · decide
  · decide
  · norm_num [costOf, PRICE_IN_M, PRICE_OUT_M]

lemma call_api_all_fail (outcomes : Nat → ApiOutcome) (L text : String)
    (hfail : ∀ i, i < 3 → ∃ e, attempt L (outcomes i) = Except.error e) :
    ∃ e, call_api outcomes L text = (Except.error e, 3) := by
  obtain ⟨e0, h0⟩ := hfail 0 (by omega)
  obtain ⟨e1, h1⟩ := hfail 1 (by omega)
  obtain ⟨e2, h2⟩ := hfail 2 (by omega)
  refine ⟨e2, ?_⟩
  unfold call_api
  rw [h0, h1, h2]

lemma do_job_fail (outcomes : Nat → ApiOutcome) (r : Nat) (L : String)
    (text : Option String) (hb : blank text = false) (hEn : L ≠ "英语")
    (hfail : ∀ i, i < 3 → ∃ e, attempt L (outcomes i) = Except.error e) :
    ∃ e, do_job outcomes r L text = (⟨r, L, "ERROR", 0, 0⟩, [⟨r, L, e⟩]) := by
  obtain ⟨e, hc⟩ := call_api_all_fail outcomes L (strOf text) hfail
  refine ⟨e, ?_⟩
  unfold do_job
  rw [if_neg (by rw [hb]; exact Bool.false_ne_true), if_neg hEn, hc]

lemma countP_flatMap {α β : Type} (l : List α) (f : α → List β) (p : β → Bool) :
    (l.flatMap f).countP p = (l.map (fun a => (f a).countP p)).sum := by
  induction l with
  | nil => rfl
  | cons a l ih =>
    rw [List.flatMap_cons, List.countP_append, List.map_cons, List.sum_cons, ih]

lemma sum_map_eq_count {α : Type} [BEq α] [LawfulBEq α] (l : List α) (a : α)
    (g : α → Nat) (h : ∀ b ∈ l, g b = if b == a then 1 else 0) :
    (l.map g).sum = l.count a := by
  induction l with
  | nil => rfl
  | cons b l ih =>
    rw [List.map_cons, List.sum_cons, List.count_cons,
      ih (fun x hx => h x (List.mem_cons_of_mem b hx)), h b (List.mem_cons_self b l)]
    exact Nat.add_comm _ _

lemma do_job_logs_countP_ne (oracle : Nat → String → Nat → ApiOutcome)
    (t1 : Table) (j : Nat × String) {r : Nat} {L : String} (hne : ¬ j = (r, L)) :
    ((do_job (oracle j.1 j.2) j.1 j.2 (t1.cell j.1 "Original")).2.countP
      (fun e => decide (e.row = r ∧ e.lang = L))) = 0 := by
  refine List.countP_eq_zero.mpr ?_
  intro e he
  obtain ⟨h1, h2⟩ := do_job_logs_key _ _ _ _ he
  simp only [decide_eq_true_eq]
  rintro ⟨hr, hl⟩
  refine hne (Prod.ext ?_ ?_)
  · rw [← h1, hr]
  · rw [← h2, hl]

lemma jobOuts_logs_count (oracle : Nat → String → Nat → ApiOutcome) (t1 : Table)
    {r : Nat} {L : String} (hr : r < t1.nrows) (hL : L ∈ LANGS) (hEn : L ≠ "英语")
    (hb : blank (t1.cell r "Original") = false)
    (hfail : ∀ i, i < 3 → ∃ e, attempt L (oracle r L i) = Except.error e) :
    ((jobOuts oracle t1).flatMap Prod.snd).countP
      (fun e => decide (e.row = r ∧ e.lang = L)) = 1 := by
  unfold jobOuts
  rw [countP_flatMap, List.map_map]
  have h : ∀ j ∈ jobList t1.nrows,
      ((fun a => a.2.countP (fun e => decide (e.row = r ∧ e.lang = L))) ∘
        fun j => do_job (oracle j.1 j.2) j.1 j.2 (t1.cell j.1 "Original")) j
      = if j == (r, L) then 1 else 0 := by
    intro j _
    by_cases hj : j = (r, L)
    · rw [if_pos (by rw [hj]; exact beq_self_eq_true (r, L)), hj]
      obtain ⟨e, hd⟩ := do_job_fail (oracle r L) r L (t1.cell r "Original") hb hEn hfail
      show (do_job (oracle r L) r L (t1.cell r "Original")).2.countP _ = 1
      rw [hd]
      simp
    · rw [if_neg (by rw [beq_eq_false_iff_ne.mpr hj]; exact Bool.false_ne_true)]
      exact do_job_logs_countP_ne oracle t1 j hj
  rw [sum_map_eq_count (jobList t1.nrows) (r, L) _ h]
  exact jobList_count hr hL

/-- C4: when every one of a job's attempts fails, `call_api` consumes exactly
3 attempts, the job's cell in the completed table holds the terminal-error
sentinel "ERROR", exactly one error-log record references that row and
language, and a sibling job's cell is still the sibling's own result (the
failure aborts neither the run nor other jobs). -/
theorem C4_terminal_failure (oracle : Nat → String → Nat → ApiOutcome)
    (t : Table) (r r' : Nat) (L L' : String)
    (hr : r < t.nrows) (hL : L ∈ LANGS) (hEn : L ≠ "英语")
    (hb : blank ((addLangCols t).cell r "Original") = false)
    (hfail : ∀ i, i < 3 → ∃ e, attempt L (oracle r L i) = Except.error e)
    (hr' : r' < t.nrows) (hL' : L' ∈ LANGS) (hne : ¬ (r', L') = (r, L)) :
    (call_api (oracle r L) L (strOf ((addLangCols t).cell r "Original"))).2 = 3 ∧
    (run oracle t).table.cell r L = some "ERROR" ∧
    (run oracle t).logs.countP (fun e => decide (e.row = r ∧ e.lang = L)) = 1 ∧
    (run oracle t).table.cell r' L' =
      some ((do_job (oracle r' L') r' L'
        ((addLangCols t).cell r' "Original")).1.res) := by
  refine ⟨?_, ?_, ?_, ?_⟩
  · obtain ⟨e, hc⟩ := call_api_all_fail (oracle r L) L
      (strOf ((addLangCols t).cell r "Original")) hfail
    rw [hc]
  · obtain ⟨e, hd⟩ := do_job_fail (oracle r L) r L
      ((addLangCols t).cell r "Original") hb hEn hfail
    rw [run_table_cell oracle t hr hL, hd]
  · rw [run_logs_eq]
    exact jobOuts_logs_count oracle (addLangCols t)
      (by rw [addLangCols_nrows]; exact hr) hL hEn hb hfail
  · exact run_table_cell oracle t hr' hL'

theorem C4_witness :
    (call_api (wOracleErr 0 "法语") "法语"
      (strOf ((addLangCols wTable).cell 0 "Original"))).2 = 3 ∧
    (run wOracleErr wTable).table.cell 0 "法语" = some "ERROR" ∧
    (run wOracleErr wTable).logs.countP
      (fun e => decide (e.row = 0 ∧ e.lang = "法语")) = 1 ∧
    (run wOracleErr wTable).table.cell 0 "德语" =
      some ((do_job (wOracleErr 0 "德语") 0 "德语"
        ((addLangCols wTable).cell 0 "Original")).1.res) :=
  C4_terminal_failure wOracleErr wTable 0 0 "法语" "德语"
    (by decide) (by decide) (by decide) (by decide)
    (fun i _ => ⟨"net", rfl⟩) (by decide) (by decide) (by decide)

end Translator
